import Mathlib

/-!
Shallow embedding of the meow-vm core (value model, object model, bytecode
chunk, memory manager, interpreter entry) together with theorems settling
the specification claims.

Conventions of the embedding:
* C++ `int64_t` is modelled as `Int`; where two's-complement wrap-around or
  byte extraction matters the 64-bit bit pattern `(v % 2^64).toNat` is used
  explicitly.
* C++ `double` payloads are modelled by `Float64`: NaN, signed infinity, or
  a finite value represented by its exact rational value (every finite
  IEEE-754 double is a rational; the embedded operations never distinguish
  +0.0 from -0.0).
* Heap references (`ObjString*`, `ObjArray*`, ...) are modelled by the
  referent's contents, because every embedded operation only reads the
  referent.
* A C++ execution path with no defined result (control falling off the end
  of a value-returning function, an out-of-bounds `std::vector` access) is
  modelled as `none` of an `Option` result type.
-/

namespace Meow

/-- Model of the IEEE-754 `double` payload of a `Float` Value: NaN, a signed
infinity, or a finite value given by its exact rational value. -/
inductive Float64 where
  | nan : Float64
  | inf (neg : Bool) : Float64
  | finite (q : ℚ) : Float64

/-- Model of `meow::common::Value` (value.h): the closed `std::variant` over
Null, Int, Float, Bool and the six heap-reference alternatives Bytes,
String, Array, Object(hash), Module, Proto.  Reference alternatives carry
the referent's contents; `module` and `proto` referents are never read by
the embedded operations, so they carry nothing. -/
inductive Value where
  | null : Value
  | int (i : Int) : Value
  | float (f : Float64) : Value
  | bool (b : Bool) : Value
  | bytes (data : List Nat) : Value
  | str (s : String) : Value
  | array (elements : List Value) : Value
  | object (methods : List (String × Value)) : Value
  | module : Value
  | proto : Value

/-- Model of the Float case of `Value::asBool` (value.cpp line 126-128):
`return f != 0.0 && !std::isnan(f);`.  NaN compares unequal to 0.0 but
`isnan` is true, so NaN gives false; infinities give true; a finite value
gives true iff it is nonzero (both zeroes compare equal to 0.0). -/
def floatAsBool : Float64 → Bool
  | .nan => false
  | .inf _ => true
  | .finite q => decide (q ≠ 0)

/-- Model of `Value::asBool` (value.cpp lines 122-135).  The `visit` call
supplies lambdas for Null, Int, Float, Bool, String, Array and Object; the
trailing `auto&&` lambda returns true and catches Bytes, Module and Proto.
The String lambda reads `{ !s->empty(); }` - the computed value is
discarded and control falls off the end of a `bool`-returning lambda, which
is undefined behaviour, modelled as `none`. -/
def Value.asBool : Value → Option Bool
  | .null => some false
  | .int i => some (decide (i ≠ 0))
  | .float f => some (floatAsBool f)
  | .bool b => some b
  | .str _ => none
  | .array a => some (!a.isEmpty)
  | .object o => some (!o.isEmpty)
  | _ => some true

/-- Model of `ObjHash` (definitions.h): the `std::unordered_map<std::string,
Value>` field `methods`, as an association list (keys are distinct in the
real map; no embedded operation depends on that). -/
abbrev ObjHash : Type := List (String × Value)

/-- Model of `ObjHash::get` (definitions.h lines 383-396): `return
methods.at(key);`.  `std::unordered_map::at` throws `std::out_of_range`
when the key is absent; the absent case therefore has no returned Value and
is modelled as `none`. -/
def ObjHash.get (h : ObjHash) (key : String) : Option Value :=
  List.lookup key h

/-- Model of `ObjHash::has` (definitions.h lines 440-452): `return
methods.find(key) != methods.end();`. -/
def ObjHash.has (h : ObjHash) (key : String) : Bool :=
  (List.lookup key h).isSome

/-- Model of `ObjArray::trace` (definitions.h lines 327-331): `for (auto&
element : elements) visitor.visitValue(element);`.  The `GCVisitor` is
modelled as an arbitrary state type `σ` with a `visitValue` transition; the
loop is the left fold of that transition over the elements. -/
def ObjArray.trace {σ : Type} (visitValue : σ → Value → σ) (s : σ)
    (elements : List Value) : σ :=
  elements.foldl visitValue s

/-- Model of `ObjHash::trace` (definitions.h lines 476-480): `for (auto&
pair : methods) visitor.visitValue(pair.second);`. -/
def ObjHash.trace {σ : Type} (visitValue : σ → Value → σ) (s : σ)
    (h : ObjHash) : σ :=
  h.foldl (fun acc pair => visitValue acc pair.2) s

/-- Recording visitor used to state the tracing claims: its state is the
list of Values reported so far, in order. -/
def recordVisit (acc : List Value) (v : Value) : List Value :=
  acc ++ [v]

/-- Largest `int64_t` value, `std::numeric_limits<int64_t>::max()`. -/
def maxInt64 : Int := 2 ^ 63 - 1

/-- Smallest `int64_t` value, `std::numeric_limits<int64_t>::min()`. -/
def minInt64 : Int := -(2 ^ 63)

/-- Value of `std::numeric_limits<Int>::max()` as a natural number, the
`limit` of the binary branch of `Value::asInt` (value.cpp line 40). -/
def maxInt64Nat : Nat := 2 ^ 63 - 1

/-- Saturation of an integer to the `int64_t` range, the combined effect of
the `ERANGE` check and the explicit bound checks in `Value::asInt`
(value.cpp lines 69-78): a C `strtoll` that overflows sets `ERANGE` and
returns `LLONG_MAX`/`LLONG_MIN` by the sign of the input, which equals
clamping the mathematically accumulated value to the `int64_t` range. -/
def satInt64 (x : Int) : Int :=
  if x > maxInt64 then maxInt64 else if x < minInt64 then minInt64 else x

/-- Character class of C `std::isspace` in the default locale: space,
horizontal tab, line feed, vertical tab, form feed, carriage return. -/
def isCSpace (c : Char) : Bool :=
  c == ' ' || c == '\t' || c == '\n' || c == Char.ofNat 11 ||
    c == Char.ofNat 12 || c == '\r'

/-- Character class of C `std::isdigit`. -/
def isCDigit (c : Char) : Bool :=
  '0' ≤ c && c ≤ '9'

/-- Characters accepted as digits by C `strtoll` for the three bases the
source selects (8, 10, 16). -/
def isBaseDigit (base : Nat) (c : Char) : Bool :=
  if base = 16 then
    isCDigit c || ('a' ≤ c && c ≤ 'f') || ('A' ≤ c && c ≤ 'F')
  else if base = 8 then
    '0' ≤ c && c ≤ '7'
  else
    isCDigit c

/-- Numeric value of a digit character (any base up to 16). -/
def baseDigitVal (c : Char) : Nat :=
  if isCDigit c then c.toNat - '0'.toNat
  else if 'a' ≤ c && c ≤ 'f' then c.toNat - 'a'.toNat + 10
  else c.toNat - 'A'.toNat + 10

/-- Result of the modelled C `strtoll`: the returned value (already
saturated, per the `satInt64` note) and whether any characters were
consumed (`endptr != nptr`). -/
structure StrtollResult where
  val : Int
  consumed : Bool

/-- Model of C `strtoll(nptr, &endptr, base)` for bases 8, 10, 16 as used
by `Value::asInt` (value.cpp line 67): skip leading `isspace` characters,
read an optional sign, for base 16 skip an optional `0x`/`0X` prefix (only
when a hexadecimal digit follows; otherwise only the initial `0` is
consumed as a digit), then consume the longest run of valid digits.  With
no digits consumed the result is 0 with `endptr == nptr`; otherwise the
accumulated signed value saturated to `int64_t` (the `ERANGE` case). -/
def strtollModel (cs : List Char) (base : Nat) : StrtollResult :=
  let cs1 := cs.dropWhile isCSpace
  let signed : Bool × List Char :=
    match cs1 with
    | '-' :: rest => (true, rest)
    | '+' :: rest => (false, rest)
    | rest => (false, rest)
  let cs2 := signed.2
  let cs3 :=
    if base = 16 then
      match cs2 with
      | '0' :: x :: rest =>
        if (x == 'x' || x == 'X') &&
            (match rest with
             | d :: _ => isBaseDigit 16 d
             | [] => false) then rest
        else cs2
      | _ => cs2
    else cs2
  let digits := cs3.takeWhile (isBaseDigit base)
  if digits.isEmpty then ⟨0, false⟩
  else
    let n : Nat := digits.foldl (fun a c => a * base + baseDigitVal c) 0
    ⟨satInt64 (if signed.1 then -(n : Int) else (n : Int)), true⟩

/-- Model of the manual binary accumulation loop of `Value::asInt`
(value.cpp lines 39-50).  The loop walks the characters after the `0b`
prefix, stopping (`break`) at the first character that is not `0` or `1`;
before each step it checks `accumulator > (limit - d) / 2` and on overflow
returns saturated (modelled as `none`); otherwise the step computes
`(accumulator << 1) | d`, which for `d < 2` equals `2 * accumulator + d`. -/
def binAccumLoop : List Char → Nat → Option Nat
  | [], acc => some acc
  | c :: rest, acc =>
    if c == '0' || c == '1' then
      let d := c.toNat - '0'.toNat
      if acc > (maxInt64Nat - d) / 2 then none
      else binAccumLoop rest (2 * acc + d)
    else some acc

/-- Model of the String case of `Value::asInt` (value.cpp lines 18-81):
trim `isspace` characters from both ends (empty remainder gives 0), read an
optional sign (sign with nothing after it gives 0), dispatch on a `0b`/`0B`
prefix to the manual binary loop, otherwise select base 16 for `0x`/`0X`,
base 8 for `0o`/`0O` or a bare leading zero followed by a digit, else base
10, and hand the whole token (sign included, prefix NOT stripped) to
`strtoll` with that base; an unconsumed parse gives 0, and the `ERANGE` and
bound checks amount to `int64_t` saturation. -/
def asIntOfString (sfull : List Char) : Int :=
  let token := ((sfull.dropWhile isCSpace).reverse.dropWhile isCSpace).reverse
  if token.isEmpty then 0
  else
    let signed : Bool × List Char :=
      match token with
      | '-' :: rest => (true, rest)
      | '+' :: rest => (false, rest)
      | rest => (false, rest)
    let negative := signed.1
    let rest := signed.2
    if rest.isEmpty then 0
    else
      match rest with
      | '0' :: c2 :: tail2 =>
        if c2 == 'b' || c2 == 'B' then
          match binAccumLoop tail2 0 with
          | none => if negative then minInt64 else maxInt64
          | some acc => if negative then -(acc : Int) else (acc : Int)
        else
          let base : Nat :=
            if c2 == 'x' || c2 == 'X' then 16
            else if c2 == 'o' || c2 == 'O' then 8
            else if isCDigit c2 then 8
            else 10
          let r := strtollModel token base
          if r.consumed then r.val else 0
      | _ =>
        let r := strtollModel token 10
        if r.consumed then r.val else 0

/-- Truncation toward zero of a rational, the effect of C++
`static_cast<int64_t>` on an in-range `double`. -/
def ratTrunc (q : ℚ) : Int :=
  if 0 ≤ q then ⌊q⌋ else ⌈q⌉

/-- Model of the Float case of `Value::asInt` (value.cpp lines 10-16):
infinities saturate to the `int64_t` extremes by sign, NaN gives 0, and a
finite value is truncated toward zero by `static_cast<int64_t>`, which is
undefined behaviour (modelled `none`) when the truncated value does not fit
in `int64_t`. -/
def floatAsInt : Float64 → Option Int
  | .inf neg => some (if neg then minInt64 else maxInt64)
  | .nan => some 0
  | .finite q =>
    if minInt64 ≤ ratTrunc q ∧ ratTrunc q ≤ maxInt64 then some (ratTrunc q)
    else none

/-- Model of `Value::asInt` (value.cpp lines 6-84).  The `visit` call
supplies lambdas for Null, Int, Float, Bool and String; the trailing
`auto&&` lambda returns 0 and catches Bytes, Array, Object, Module and
Proto. -/
def Value.asInt : Value → Option Int
  | .null => some 0
  | .int i => some i
  | .float f => floatAsInt f
  | .bool b => some (if b then 1 else 0)
  | .str s => some (asIntOfString s.data)
  | _ => some 0

/-- Model of the trailing-zero trimming step of the Float case of
`Value::asString` (value.cpp lines 149-155), applied to the fixed-point
15-fractional-digit rendering produced by `std::ostringstream` with
`std::fixed << std::setprecision(15)` (host floating-point formatting, kept
outside the embedding; the theorems apply this function to concrete
renderings).  The source finds the first dot, decrements `end` from the
string size while the preceding character is `'0'` and `end > pos + 1`, and
then, when everything after the dot was trimmed (`end == pos + 1`),
executes `--pos` - which does not change the returned `str.substr(0, end)`.
The dead decrement is kept here as `_pos2`. -/
def trimFloatFixed (cs : List Char) : List Char :=
  match cs.findIdx? (fun c => c == '.') with
  | none => cs
  | some pos =>
    let e := pos + 1 + ((cs.drop (pos + 1)).reverse.dropWhile (fun c => c == '0')).length
    let _pos2 := if e = pos + 1 then pos - 1 else pos
    cs.take e

/-- Model of `meow::runtime::Chunk` (chunk.h): the instruction byte stream
(bytes are naturals below 256 by construction), the constant pool, and the
internal read cursor `ip`. -/
structure Chunk where
  code : List Nat
  constantPool : List Value
  ip : Nat

/-- Little-endian byte image of a 64-bit immediate, as produced by
`Chunk::writeInt64` (chunk.h lines 17-21): for i = 0..7 the source pushes
`(value >> (i*8)) & 0xff`; on two's complement with arithmetic right shift
that byte equals `(v mod 2^64) / 2^(8*i) mod 256` (`>>> (8*i)` below), the
digit of the nonnegative 64-bit bit pattern, least significant first. -/
def int64LEBytes (v : Int) : List Nat :=
  (List.range 8).map (fun i => ((v % ((2 : Int) ^ 64)).toNat >>> (8 * i)) % 256)

/-- Model of `Chunk::writeInt64` (chunk.h lines 17-21): append the 8
little-endian bytes of the immediate to the code stream. -/
def Chunk.writeInt64 (v : Int) (c : Chunk) : Chunk :=
  { c with code := c.code ++ int64LEBytes v }

/-- Model of `Chunk::readByte` (chunk.h lines 23-25): `return code[ip++];`.
The access has no bounds check, so a cursor at or past the end of the code
is an out-of-bounds `std::vector::operator[]` with no defined result,
modelled as `none`. -/
def Chunk.readByte (c : Chunk) : Option (Nat × Chunk) :=
  if h : c.ip < c.code.length then
    some (c.code.get ⟨c.ip, h⟩, { c with ip := c.ip + 1 })
  else none

/-- Accumulation loop body of `Chunk::readInt64` (chunk.h lines 27-33):
`value |= static_cast<int64_t>(code[ip++]) << (i * 8)` for i = 0..7,
expressed on the 64-bit two's-complement bit pattern of `value` (signed
bitwise-or is bit-pattern or; the i = 7 shift wraps modulo 2^64, which the
final signed reinterpretation `toInt64` accounts for). -/
def leReadAux : List Nat → Nat → Nat → Nat
  | [], _, acc => acc
  | b :: rest, i, acc => leReadAux rest (i + 1) (acc ||| (b <<< (8 * i)))

/-- Bit pattern accumulated by the `Chunk::readInt64` loop over a byte
window. -/
def leRead (bs : List Nat) : Nat :=
  leReadAux bs 0 0

/-- Signed reinterpretation of a 64-bit bit pattern as `int64_t`. -/
def toInt64 (n : Nat) : Int :=
  if n < 2 ^ 63 then (n : Int) else (n : Int) - 2 ^ 64

/-- Model of `Chunk::readInt64` (chunk.h lines 27-33): read 8 bytes at the
cursor, least significant first, or-ing each into the accumulator; the
loop performs eight unchecked `code[ip++]` accesses, so a window reaching
past the end of the code has no defined result (`none`). -/
def Chunk.readInt64 (c : Chunk) : Option (Int × Chunk) :=
  if c.ip + 8 ≤ c.code.length then
    some (toInt64 (leRead ((c.code.drop c.ip).take 8)), { c with ip := c.ip + 8 })
  else none

/-- Model of `Chunk::readConstant` (chunk.h lines 35-39): the guard
`if (index < 0 || index >= constantPool.size()) return Value(Null{});`
(the first disjunct is vacuous for the unsigned `size_t` index) returns
Null for an out-of-range index, and for an in-range index control falls
off the end of the `Value`-returning function, which is undefined
behaviour, modelled as `none`. -/
def Chunk.readConstant (c : Chunk) (index : Nat) : Option Value :=
  if c.constantPool.length ≤ index then some Value.null else none

/-- Model of `meow::memory::MemoryManager` (memory_manager.h): the
occupancy counter `allocated`, the `threshold`, and the garbage collector's
set of registered objects (objects are identified by naturals). -/
structure MemoryManager where
  allocated : Nat
  threshold : Nat
  registered : List Nat

/-- Model of `MemoryManager::newObject` (memory_manager.h lines 17-26).
When `allocated >= threshold` the source line reads `gc->collect()` - it is
ill-formed C++ (no trailing semicolon, and `GarbageCollector::collect`
requires a `MeowState&` argument), and in any reading it invokes the
collector directly rather than `MemoryManager::collect`, so it cannot touch
the private `allocated` counter; it is modelled as an arbitrary
transformation `gcCollect` of the registered-object set only.  Then the
object is constructed, registered with the collector, and the counter is
incremented. -/
def MemoryManager.newObject (gcCollect : List Nat → List Nat)
    (m : MemoryManager) (obj : Nat) : MemoryManager × Nat :=
  let m1 := if m.threshold ≤ m.allocated
    then { m with registered := gcCollect m.registered } else m
  ({ m1 with registered := obj :: m1.registered,
             allocated := m1.allocated + 1 }, obj)

/-- Model of `MemoryManager::collect` (memory_manager.h lines 28-32): run a
collection cycle over the registered set and reset the occupancy counter to
zero (the `state` null check is dropped: a present state is modelled). -/
def MemoryManager.collect (gcCollect : List Nat → List Nat)
    (m : MemoryManager) : MemoryManager :=
  { m with registered := gcCollect m.registered, allocated := 0 }

/-- Model of `meow::runtime::MeowState` (meow_state.h): the five engine
containers.  The element types `CallFrame` (an empty struct),
`meow::common::Upvalue` and `meow::common::ExceptionHandler` (referenced
but not defined anywhere in the sources) and `Module` carry no data the
embedded operations read, so they are modelled as `Unit`. -/
structure MeowState where
  callStack : List Unit
  stackSlots : List Value
  openUpvalues : List Unit
  moduleCache : List (String × Unit)
  exceptionHandlers : List Unit

/-- Model of `MeowState::reset` (meow_state.h lines 19-25): clear all five
containers. -/
def MeowState.reset (_s : MeowState) : MeowState :=
  ⟨[], [], [], [], []⟩

/-- Observable outcome of one `MeowVM::interpret` call: the engine state it
leaves behind, whether any Chunk was loaded and executed, and the fatal
fault it reported to the caller, if any. -/
structure InterpretOutcome where
  state : MeowState
  executedChunk : Bool
  reportedFault : Option String

/-- Model of `MeowVM::interpret` (meow_vm.cpp lines 13-23): `state.reset()`
followed by a `try` block that is empty and two `catch` handlers whose
bodies are empty.  Nothing is loaded or executed (`executedChunk := false`)
and nothing is reported to the caller (`reportedFault := none`); any
exception would be swallowed silently. -/
def MeowVM.interpret (s : MeowState) (_entryPath : String) : InterpretOutcome :=
  { state := s.reset, executedChunk := false, reportedFault := none }

/-- Base-256 value of a little-endian byte list, the reference meaning of
the byte windows written and read by the Chunk. -/
def ofLE : List Nat → Nat
  | [] => 0
  | b :: rest => b + 256 * ofLE rest

/-! Helper lemmas shared by the claim theorems. -/

theorem lookup_isSome_iff_mem (h : List (String × Value)) (k : String) :
    (List.lookup k h).isSome = true ↔ k ∈ h.map Prod.fst := by
  induction h with
  | nil => simp [List.lookup]
  | cons p t ih =>
    obtain ⟨a, v⟩ := p
    by_cases hk : k = a
    · subst hk
      simp [List.lookup]
    · have hbeq : (k == a) = false := by
        simp [hk]
      simp [List.lookup, hbeq, ih, hk]

theorem lookup_eq_none_iff_not_mem (h : List (String × Value)) (k : String) :
    List.lookup k h = none ↔ k ∉ h.map Prod.fst := by
  rw [← lookup_isSome_iff_mem]
  cases List.lookup k h <;> simp

theorem lookup_some_mem (h : List (String × Value)) (k : String) (v : Value)
    (hv : List.lookup k h = some v) : (k, v) ∈ h := by
  induction h with
  | nil => simp [List.lookup] at hv
  | cons p t ih =>
    obtain ⟨a, w⟩ := p
    by_cases hk : k = a
    · subst hk
      simp [List.lookup] at hv
      simp [hv]
    · have hbeq : (k == a) = false := by
        simp [hk]
      simp [List.lookup, hbeq] at hv
      simp [ih hv]

theorem foldl_recordVisit (l : List Value) : ∀ acc : List Value,
    l.foldl recordVisit acc = acc ++ l := by
  induction l with
  | nil => intro acc; simp [List.foldl]
  | cons a t ih => intro acc; simp [List.foldl, recordVisit, ih]

theorem foldl_recordVisit_snd (l : List (String × Value)) :
    ∀ acc : List Value,
    l.foldl (fun acc pair => recordVisit acc pair.2) acc = acc ++ l.map Prod.snd := by
  induction l with
  | nil => intro acc; simp [List.foldl]
  | cons a t ih =>
    intro acc
    simp only [List.foldl, recordVisit] at ih ⊢
    rw [ih]
    simp

theorem lor_shiftLeft_eq_add (k a b : Nat) (ha : a < 2 ^ k) :
    a ||| (b <<< k) = a + b * 2 ^ k := by
  apply Nat.eq_of_testBit_eq
  intro i
  rw [Nat.testBit_lor, Nat.testBit_shiftLeft]
  rcases Nat.lt_or_ge i k with hik | hik
  · have hd : (decide (i ≥ k)) = false := by
      simp only [ge_iff_le, decide_eq_false_iff_not]
      omega
    rw [hd, Bool.false_and, Bool.or_false]
    rw [Nat.testBit_to_div_mod, Nat.testBit_to_div_mod]
    have h3 : a + b * 2 ^ k = a + b * 2 ^ (k - i) * 2 ^ i := by
      rw [Nat.mul_assoc, ← pow_add]
      congr 3
      omega
    rw [h3, Nat.add_mul_div_right _ _ (pow_pos (by norm_num : (0 : ℕ) < 2) i)]
    have h4 : b * 2 ^ (k - i) = b * 2 ^ (k - i - 1) * 2 := by
      rw [Nat.mul_assoc, ← pow_succ]
      congr 2
      omega
    rw [h4, Nat.add_mul_mod_self_right]
  · have hd : (decide (i ≥ k)) = true := by
      simp only [ge_iff_le, decide_eq_true_eq]
      omega
    rw [hd, Bool.true_and]
    have haf : a.testBit i = false := by
      apply Nat.testBit_lt_two_pow
      calc a < 2 ^ k := ha
        _ ≤ 2 ^ i := Nat.pow_le_pow_right (by norm_num) hik
    rw [haf, Bool.false_or]
    rw [Nat.testBit_to_div_mod, Nat.testBit_to_div_mod]
    have h5 : (a + b * 2 ^ k) / 2 ^ k = b := by
      rw [Nat.add_mul_div_right _ _ (pow_pos (by norm_num : (0 : ℕ) < 2) k),
        Nat.div_eq_of_lt ha, Nat.zero_add]
    have h2 : (2 : Nat) ^ i = 2 ^ k * 2 ^ (i - k) := by
      rw [← pow_add]
      congr 1
      omega
    rw [h2, ← Nat.div_div_eq_div_mul, h5]

theorem leReadAux_eq (bs : List Nat) : ∀ (i acc : Nat),
    (∀ b ∈ bs, b < 256) → acc < 2 ^ (8 * i) →
    leReadAux bs i acc = acc + 2 ^ (8 * i) * ofLE bs := by
  induction bs with
  | nil => intro i acc _ _; simp [leReadAux, ofLE]
  | cons b rest ih =>
    intro i acc hb hacc
    have hb0 : b < 256 := hb b (by simp)
    have hstep : acc ||| (b <<< (8 * i)) = acc + b * 2 ^ (8 * i) :=
      lor_shiftLeft_eq_add (8 * i) acc b hacc
    have h2 : (2 : Nat) ^ (8 * (i + 1)) = 2 ^ (8 * i) * 256 := by
      rw [show 8 * (i + 1) = 8 * i + 8 by ring, pow_add]
      norm_num
    have hlt : acc + b * 2 ^ (8 * i) < 2 ^ (8 * (i + 1)) := by
      calc acc + b * 2 ^ (8 * i) < 2 ^ (8 * i) + b * 2 ^ (8 * i) := by omega
        _ = (b + 1) * 2 ^ (8 * i) := by ring
        _ ≤ 256 * 2 ^ (8 * i) := by
            apply Nat.mul_le_mul_right
            omega
        _ = 2 ^ (8 * (i + 1)) := by rw [h2]; ring
    rw [show leReadAux (b :: rest) i acc
        = leReadAux rest (i + 1) (acc ||| (b <<< (8 * i))) from rfl]
    rw [hstep, ih (i + 1) _ (fun x hx => hb x (by simp [hx])) hlt]
    rw [show ofLE (b :: rest) = b + 256 * ofLE rest from rfl, h2]
    ring

theorem leRead_ofLE (bs : List Nat) (hb : ∀ b ∈ bs, b < 256) :
    leRead bs = ofLE bs := by
  have h := leReadAux_eq bs 0 0 hb (by norm_num)
  simpa [leRead] using h

theorem int64LEBytes_lt (v : Int) : ∀ b ∈ int64LEBytes v, b < 256 := by
  intro b hb
  simp only [int64LEBytes, List.mem_map, List.mem_range] at hb
  obtain ⟨i, _, rfl⟩ := hb
  exact Nat.mod_lt _ (by norm_num)

theorem int64LEBytes_length (v : Int) : (int64LEBytes v).length = 8 := by
  simp [int64LEBytes]

theorem ofLE_int64LEBytes (v : Int) :
    ofLE (int64LEBytes v) = (v % ((2 : Int) ^ 64)).toNat := by
  have hnn : 0 ≤ v % ((2 : Int) ^ 64) := Int.emod_nonneg v (by norm_num)
  have hub : v % ((2 : Int) ^ 64) < 2 ^ 64 := Int.emod_lt_of_pos v (by norm_num)
  have hlt : (v % ((2 : Int) ^ 64)).toNat < 18446744073709551616 := by
    norm_num at hub
    omega
  have hlist : int64LEBytes v =
      [(v % ((2 : Int) ^ 64)).toNat >>> 0 % 256,
       (v % ((2 : Int) ^ 64)).toNat >>> 8 % 256,
       (v % ((2 : Int) ^ 64)).toNat >>> 16 % 256,
       (v % ((2 : Int) ^ 64)).toNat >>> 24 % 256,
       (v % ((2 : Int) ^ 64)).toNat >>> 32 % 256,
       (v % ((2 : Int) ^ 64)).toNat >>> 40 % 256,
       (v % ((2 : Int) ^ 64)).toNat >>> 48 % 256,
       (v % ((2 : Int) ^ 64)).toNat >>> 56 % 256] := rfl
  rw [hlist]
  simp only [ofLE, Nat.shiftRight_eq_div_pow]
  norm_num
  omega

theorem toInt64_emod (v : Int) (h1 : -(2 ^ 63) ≤ v) (h2 : v < 2 ^ 63) :
    toInt64 ((v % ((2 : Int) ^ 64)).toNat) = v := by
  have h1n : -9223372036854775808 ≤ v := by norm_num at h1; exact h1
  have h2n : v < 9223372036854775808 := by exact_mod_cast h2
  have hmod : v % ((2 : Int) ^ 64) = v % 18446744073709551616 := by norm_num
  rw [toInt64, hmod]
  split
  · next hc =>
      have hc2 : (v % 18446744073709551616).toNat < 9223372036854775808 := by
        norm_num at hc
        exact hc
      omega
  · next hc =>
      have hc2 : 9223372036854775808 ≤ (v % 18446744073709551616).toNat := by
        norm_num at hc
        exact hc
      norm_num
      omega

/-! Claim theorems. -/

/-- C1: the claim states that `asBool` of a Bytes reference is true iff the
referent is non-empty and that a String reference gives true iff non-empty.
The code diverges: the `visit` in `Value::asBool` has no Bytes lambda, so a
Bytes Value falls to the default `auto&&` lambda and yields true even for
an empty referent, and the String lambda `{ !s->empty(); }` discards the
computed value and falls off the end of the lambda (undefined behaviour, no
defined result).  This theorem evaluates the embedded code at both failing
inputs. -/
theorem claim_C1 :
    Value.asBool (Value.bytes []) = some true ∧
    Value.asBool (Value.str ("abc")) = none :=
  ⟨rfl, rfl⟩

/-- C2 counterexample: the claim states that getting an absent key from a
HashObject returns the Null Value and does not fail; in the code
`ObjHash::get` is `methods.at(key)`, which throws `std::out_of_range` for
an absent key (modelled as `none`), so on the empty hash the get of any key
does not return Null. -/
theorem claim_C2_counterexample :
    ObjHash.get ([] : ObjHash) ("missing") ≠ some Value.null := by
  intro h
  simp [ObjHash.get, List.lookup] at h

/-- C2 amended: getting an absent key from a HashObject fails (it throws
`std::out_of_range` out of `unordered_map::at`; it does not return Null),
getting a present key returns a stored mapped Value, and `has(k)` returns
true iff `k` is a key of the hash. -/
theorem claim_C2 : ∀ (h : ObjHash) (k : String),
    (ObjHash.has h k = true ↔ k ∈ h.map Prod.fst) ∧
    (ObjHash.get h k = none ↔ k ∉ h.map Prod.fst) ∧
    (∀ v, ObjHash.get h k = some v → (k, v) ∈ h) := by
  intro h k
  refine ⟨lookup_isSome_iff_mem h k, lookup_eq_none_iff_not_mem h k, ?_⟩
  intro v hv
  exact lookup_some_mem h k v hv

/-- C2 witness: instantiation of the amended theorem on a one-entry hash,
discharging the implication of the present-key conjunct at a concrete
lookup result. -/
theorem claim_C2_witness :
    ((("a" : String), Value.int 1) ∈ ([(("a" : String), Value.int 1)] : ObjHash)) :=
  (claim_C2 ([(("a" : String), Value.int 1)] : ObjHash) ("a")).2.2 (Value.int 1) rfl

/-- C3 counterexample: the claim states that reading a constant with an
out-of-range index is a decode error, fatal and never silently yielding a
default such as Null; in the code `Chunk::readConstant` returns
`Value(Null{})` for an out-of-range index, silently. -/
theorem claim_C3_counterexample :
    Chunk.readConstant ⟨[], [], 0⟩ 0 = some Value.null := rfl

/-- C3 amended: reading a byte or a 64-bit operand with the cursor at or
past the end of the code stream is an unchecked `std::vector` access with
no defined result (no error is raised or reported), and `readConstant`
silently returns the Null Value for any index not less than the constant
pool's size, while for an in-range index control falls off the end of the
function (no defined result). -/
theorem claim_C3 : ∀ (c : Chunk) (i : Nat),
    (c.code.length ≤ c.ip → c.readByte = none) ∧
    (c.code.length < c.ip + 8 → c.readInt64 = none) ∧
    (c.constantPool.length ≤ i → c.readConstant i = some Value.null) ∧
    (i < c.constantPool.length → c.readConstant i = none) := by
  intro c i
  refine ⟨?_, ?_, ?_, ?_⟩
  · intro h
    rw [Chunk.readByte, dif_neg (by omega)]
  · intro h
    rw [Chunk.readInt64, if_neg (by omega)]
  · intro h
    rw [Chunk.readConstant, if_pos h]
  · intro h
    rw [Chunk.readConstant, if_neg (by omega)]

/-- C3 witness: instantiations of the amended theorem at concrete chunks,
discharging each hypothesis. -/
theorem claim_C3_witness :
    Chunk.readByte ⟨[], [], 0⟩ = none ∧
    Chunk.readInt64 ⟨[], [], 0⟩ = none ∧
    Chunk.readConstant ⟨[], [], 0⟩ 1 = some Value.null ∧
    Chunk.readConstant ⟨[], [Value.int 7], 0⟩ 0 = none :=
  ⟨(claim_C3 ⟨[], [], 0⟩ 1).1 (by decide),
   (claim_C3 ⟨[], [], 0⟩ 1).2.1 (by decide),
   (claim_C3 ⟨[], [], 0⟩ 1).2.2.1 (by decide),
   (claim_C3 ⟨[], [Value.int 7], 0⟩ 0).2.2.2 (by decide)⟩

/-- C4: the claim states that `asString` of a Float with no fractional
remainder never ends in a lone decimal point.  The code's trimming step
(value.cpp lines 149-155) decrements `pos` instead of `end` when all
fractional digits were zeros, so the returned `str.substr(0, end)` keeps
the dot: the fixed 15-fractional-digit rendering of 5.0,
"5.000000000000000", trims to "5." rather than "5". -/
theorem claim_C4 :
    trimFloatFixed (("5.000000000000000" : String)).data = (("5." : String)).data := rfl

/-- C5: the claim states that a string with an `0o`/`0O` prefix is parsed
as octal.  The code sets base 8 for such a token but hands the unstripped
token to `strtoll`, which (having no `0o` syntax) consumes only the leading
`0` and stops at `o`, so every `0o`-prefixed string yields 0; "0o17" gives
0 where the claim requires the octal value 15.  The second conjunct shows
the bare-leading-zero octal form of the same number does parse. -/
theorem claim_C5 :
    Value.asInt (Value.str ("0o17")) = some 0 ∧
    Value.asInt (Value.str ("017")) = some 15 := ⟨rfl, rfl⟩

/-- C6: for every 64-bit signed integer `v` and chunk whose cursor sits at
the end of the code, `writeInt64 v` appends exactly 8 bytes, the
little-endian byte image of `v`, and `readInt64` starting where those
bytes begin returns exactly `v` (the write-then-read round-trip, negative
values included). -/
theorem claim_C6 : ∀ (c : Chunk) (v : Int), c.ip = c.code.length →
    -(2 ^ 63) ≤ v → v < 2 ^ 63 →
    (Chunk.writeInt64 v c).code = c.code ++ int64LEBytes v ∧
    (int64LEBytes v).length = 8 ∧
    Chunk.readInt64 (Chunk.writeInt64 v c) =
      some (v, ⟨c.code ++ int64LEBytes v, c.constantPool, c.ip + 8⟩) := by
  intro c v hip h1 h2
  refine ⟨rfl, int64LEBytes_length v, ?_⟩
  have hcond : (Chunk.writeInt64 v c).ip + 8 ≤ (Chunk.writeInt64 v c).code.length := by
    simp [Chunk.writeInt64, int64LEBytes_length, hip]
  rw [Chunk.readInt64, if_pos hcond]
  have hwin : ((Chunk.writeInt64 v c).code.drop (Chunk.writeInt64 v c).ip).take 8
      = int64LEBytes v := by
    show ((c.code ++ int64LEBytes v).drop c.ip).take 8 = _
    rw [hip, List.drop_left]
    conv_lhs => rw [← int64LEBytes_length v]
    exact List.take_length _
  rw [hwin, leRead_ofLE _ (int64LEBytes_lt v), ofLE_int64LEBytes, toInt64_emod v h1 h2]
  rfl

/-- C6 witness: the round-trip applied to the empty chunk and the negative
immediate -2. -/
theorem claim_C6_witness :
    (Chunk.writeInt64 (-2) ⟨[], [], 0⟩).code = [] ++ int64LEBytes (-2) ∧
    (int64LEBytes (-2)).length = 8 ∧
    Chunk.readInt64 (Chunk.writeInt64 (-2) ⟨[], [], 0⟩) =
      some (-2, ⟨[] ++ int64LEBytes (-2), [], 0 + 8⟩) :=
  claim_C6 ⟨[], [], 0⟩ (-2) rfl (by norm_num) (by norm_num)

/-- C7: `ObjArray::trace` reports every element to the visitor, each
exactly once and in order (the recorded visit list equals the element
list), and `ObjHash::trace` reports every stored mapped Value (the
recorded visit list equals the list of mapped Values); nothing is
omitted. -/
theorem claim_C7 : ∀ (elements : List Value) (h : ObjHash),
    ObjArray.trace recordVisit [] elements = elements ∧
    ObjHash.trace recordVisit [] h = h.map Prod.snd := by
  intro elements h
  constructor
  · rw [ObjArray.trace, foldl_recordVisit]
    simp
  · rw [ObjHash.trace]
    have := foldl_recordVisit_snd h []
    simpa [recordVisit] using this

/-- C8: the claim states that a collection cycle triggered by an
over-threshold allocation resets the occupancy counter.  The trigger line
of `MemoryManager::newObject` reads `gc->collect()` - ill-formed C++
(missing semicolon and the mandatory `MeowState&` argument) - and in any
reading it bypasses `MemoryManager::collect`, the only place the private
counter is reset.  Evaluating the embedded code at an allocation with
`allocated = threshold = 5`: the cycle is triggered yet the counter comes
out 6, not 0 (the new object is, as claimed, registered). -/
theorem claim_C8 :
    (MemoryManager.newObject id ⟨5, 5, []⟩ 7).1.allocated = 6 ∧
    (MemoryManager.newObject id ⟨5, 5, []⟩ 7).1.allocated ≠ 0 ∧
    7 ∈ (MemoryManager.newObject id ⟨5, 5, []⟩ 7).1.registered ∧
    (MemoryManager.collect id ⟨6, 5, [7]⟩).allocated = 0 := by
  refine ⟨rfl, by decide, ?_, rfl⟩
  show 7 ∈ [7]
  simp

/-- C9: the claim states that `interpret` loads and executes the entry
module's Chunk and never terminates silently without executing.  The body
of `MeowVM::interpret` is `state.reset()` followed by an empty `try` block
and two empty `catch` handlers: all engine state is indeed emptied, but
nothing is ever loaded or executed and no fault is ever reported - for
every starting state and entry path the call returns silently having
executed nothing. -/
theorem claim_C9 : ∀ (s : MeowState) (p : String),
    (MeowVM.interpret s p).executedChunk = false ∧
    (MeowVM.interpret s p).reportedFault = none ∧
    (MeowVM.interpret s p).state.callStack = [] ∧
    (MeowVM.interpret s p).state.stackSlots = [] ∧
    (MeowVM.interpret s p).state.openUpvalues = [] ∧
    (MeowVM.interpret s p).state.moduleCache = [] ∧
    (MeowVM.interpret s p).state.exceptionHandlers = [] := by
  intro s p
  exact ⟨rfl, rfl, rfl, rfl, rfl, rfl, rfl⟩

/-- C10: `asInt` is the identity on the Int variant: for every 64-bit
signed integer `i`, a Value holding Int `i` returns exactly `i`, with no
truncation, saturation, or sign change. -/
theorem claim_C10 : ∀ (i : Int), minInt64 ≤ i → i ≤ maxInt64 →
    Value.asInt (Value.int i) = some i := by
  intro i _ _
  rfl

/-- C10 witness: the identity applied to the concrete value -42. -/
theorem claim_C10_witness :
    minInt64 ≤ (-42 : Int) ∧ (-42 : Int) ≤ maxInt64 ∧
    Value.asInt (Value.int (-42)) = some (-42) :=
  ⟨by decide, by decide, claim_C10 (-42) (by decide) (by decide)⟩

end Meow
